import Mathlib

/-
Verification development for the copper contract-verification engine.
The definitions below are shallow embeddings of the Go sources: the route
matcher and verifier of the functional-options revision (endpoint list,
`loadPath`, `Record`, `CurrentErrors`), the map-based coverage table
(`endpoints` with `IsChecked` / `MarkChecked` / `Unchecked`), and the
classified-error model (`SentinelError`, `joinError`, `errors.Is`).
-/

namespace Copper

/- The brace characters, written by code point so they can be used as plain
   character constants throughout. -/

def lbrace : Char := Char.ofNat 123

def rbrace : Char := Char.ofNat 125

/-
Route matcher.  `loadPath` turns a path template into the anchored regular
expression `^<basePath><template with each {name} replaced by [^/]+>$`
(the replacement regex is `{([^}]*)}`).  We embed the compiled pattern as a
token list: literal characters plus a `param` token that matches one or more
non-slash characters.
-/

inductive Tok where
  | lit (c : Char)
  | param
deriving DecidableEq, Repr

/-- Scanner for the template compilation: the first argument is `some acc`
while inside a still-open brace group, with `acc` the group content seen so
far.  A complete group — an opening brace up to the next closing brace —
becomes a `param` token, which is what the `{([^}]*)}` replacement in
`loadPath` does; an opening brace with no closing brace left stays literal
(the replacement regex does not fire), and so does every other
character. -/
def compileToksAux : Option (List Char) → List Char → List Tok
  | none, [] => []
  | none, c :: cs =>
    if c = lbrace then compileToksAux (some []) cs
    else Tok.lit c :: compileToksAux none cs
  | some acc, [] => Tok.lit lbrace :: acc.reverse.map Tok.lit
  | some acc, c :: cs =>
    if c = rbrace then Tok.param :: compileToksAux none cs
    else compileToksAux (some (c :: acc)) cs

/-- Compile a path template into the token list denoted by the regex
produced in `loadPath`: every complete `{name}` group becomes a `param`
token, every other character is literal. -/
def compileToks (cs : List Char) : List Tok :=
  compileToksAux none cs

/-- Match a compiled token list against a concrete character sequence,
anchored at both ends; `param` consumes one or more non-slash characters,
exactly as `[^/]+` does. -/
def matchToks (ts : List Tok) (cs : List Char) : Bool :=
  match ts, cs with
  | [], [] => true
  | [], _ :: _ => false
  | Tok.lit _ :: _, [] => false
  | Tok.lit c :: ts', d :: ds => c == d && matchToks ts' ds
  | Tok.param :: _, [] => false
  | Tok.param :: ts', d :: ds =>
    d != '/' && (matchToks ts' ds || matchToks (Tok.param :: ts') ds)

/-- Compiled route for a documented path: the anchored pattern is the base
path (literal characters) followed by the compiled template. -/
def compileRoute (basePath template : String) : List Tok :=
  basePath.data.map Tok.lit ++ compileToks template.data

/-
Specification model, as the verifier consumes it: a path item is the record
of per-method operations (the fixed fields of the external model type), an
operation carries the documented response status codes.
-/

structure Operation where
  responses : List String
deriving DecidableEq, Repr

structure PathItem where
  get : Option Operation := none
  head : Option Operation := none
  put : Option Operation := none
  post : Option Operation := none
  delete : Option Operation := none
  patch : Option Operation := none
  options : Option Operation := none
  trace : Option Operation := none
  connect : Option Operation := none
deriving DecidableEq, Repr

/-- Embedding of the external model's `GetOperation(method)` selector. -/
def PathItem.getOperation (i : PathItem) (method : String) : Option Operation :=
  if method == "GET" then i.get
  else if method == "HEAD" then i.head
  else if method == "PUT" then i.put
  else if method == "POST" then i.post
  else if method == "DELETE" then i.delete
  else if method == "PATCH" then i.patch
  else if method == "OPTIONS" then i.options
  else if method == "TRACE" then i.trace
  else if method == "CONNECT" then i.connect
  else none

/-- The fixed set of methods the verifier loads, in source order. -/
def supportedMethods : List String :=
  ["GET", "HEAD", "PUT", "POST", "DELETE", "PATCH", "OPTIONS"]

/-
Configuration, the functional-options policy record.
-/

structure Config where
  basePath : String := ""
  checkInternalServerErrors : Bool := false
  checkRequest : Bool := false
  disableFullCoverage : Bool := false
  ignoreUnsupportedBodyFormats : Bool := false
deriving DecidableEq, Repr

/-
Classified-error model.  `SentinelError` is a value type compared by its
message; `errors.New` causes and `joinError` wrappers are heap allocations
compared by pointer identity, modelled with an allocation id.
`VerificationError.Unwrap` exposes `[cause, sentinel]`, and `errorsIs` is
the standard-library membership test over that unwrapping.
-/

inductive GoError where
  | sentinelErr (msg : String)
  | basic (id : Nat) (msg : String)
  | joined (id : Nat) (sentinelMsg : String) (cause : GoError)
deriving DecidableEq, Repr

/-- Go equality (`==`) between error values: sentinel values compare by
message, allocated errors compare by allocation identity. -/
def goEq : GoError → GoError → Bool
  | .sentinelErr a, .sentinelErr b => a == b
  | .basic i _, .basic j _ => i == j
  | .joined i _ _, .joined j _ _ => i == j
  | _, _ => false

def GoError.size : GoError → Nat
  | .joined _ _ c => c.size + 1
  | _ => 0

/-- Membership test of the standard library: an error `Is` a target when it
compares equal to it or when some error it unwraps to does; a joined
verification error unwraps to its cause and its sentinel. -/
def errorsIs (err target : GoError) : Bool :=
  goEq err target ||
    match err with
    | .joined _ s cause => errorsIs cause target || errorsIs (.sentinelErr s) target
    | _ => false
termination_by err.size
decreasing_by
  · simp [GoError.size]
  · simp [GoError.size]

/-- The rendered message: a sentinel renders its text, a joined error
renders `sentinel: cause`. -/
def GoError.message : GoError → String
  | .sentinelErr m => m
  | .basic _ m => m
  | .joined _ s c => s ++ ": " ++ c.message

/-- Build a classified error wrapping a cause with a sentinel
classification; `id` is the identity of the fresh allocation. -/
def joinError (id : Nat) (sentinelMsg : String) (cause : GoError) : GoError :=
  GoError.joined id sentinelMsg cause

def ErrNotChecked : GoError := .sentinelErr "not checked"

def ErrNotPartOfSpec : GoError := .sentinelErr "not part of spec"

def ErrResponseInvalid : GoError := .sentinelErr "response invalid"

def ErrRequestInvalid : GoError := .sentinelErr "request invalid"

/-- Nested wrapping: fold a chain of (allocation id, sentinel text) layers
around a cause, outermost layer first. -/
def nestJoin (chain : List (Nat × String)) (cause : GoError) : GoError :=
  chain.foldr (fun p acc => joinError p.1 p.2 acc) cause

/-- Containment of one string in another, stated on the character data. -/
def StrContains (big sub : String) : Prop :=
  ∃ l r, big.data = l ++ sub.data ++ r

/-
Ledger entries.  Inside the verifier every appended error is
`joinError(sentinel, cause)`; for the ledger we record the classification
together with the formatted cause text.
-/

inductive Classification where
  | notChecked
  | notPartOfSpec
  | responseInvalid
  | requestInvalid
deriving DecidableEq, Repr

structure VerificationError where
  classification : Classification
  detail : String
deriving DecidableEq, Repr

/-
Verifier (functional-options revision): endpoint list, construction from
the specification model, `Record`, `CurrentErrors`.
-/

structure endpoint where
  uriRe : List Tok
  path : String
  checked : Bool
  method : String
  response : String
deriving DecidableEq, Repr

/-- One iteration of the method loop in `loadPath`: nothing when the path
item has no operation for the method, otherwise one unchecked endpoint per
documented response code, skipping `"500"` unless internal-server-error
checking is on. -/
def loadPathFor (conf : Config) (path : String) (i : PathItem) (method : String) : List endpoint :=
  match i.getOperation method with
  | none => []
  | some op =>
    (op.responses.filter fun responseCode =>
        conf.checkInternalServerErrors || responseCode != "500").map fun responseCode =>
      { uriRe := compileRoute conf.basePath path
        path := conf.basePath ++ path
        checked := false
        method := method
        response := responseCode }

/-- Embedding of `loadPath`: the method loop over the fixed supported
set. -/
def loadPath (conf : Config) (path : String) (i : PathItem) : List endpoint :=
  supportedMethods.flatMap (loadPathFor conf path i)

/-- The parsed specification model as the verifier walks it: the path map. -/
abbrev SpecModel := List (String × PathItem)

/-- Embedding of `loadPaths`: load every path of the model. -/
def loadPaths (conf : Config) (spec : SpecModel) : List endpoint :=
  spec.flatMap fun pi => loadPath conf pi.1 pi.2

structure Verifier where
  endpoints : List endpoint
  specModel : SpecModel
  errors : List VerificationError
  conf : Config

/-- Embedding of `NewVerifier` (after the external loader has produced the
model): empty ledger, coverage table loaded from the model under the
configured policy. -/
def NewVerifier (spec : SpecModel) (conf : Config) : Verifier :=
  { endpoints := loadPaths conf spec
    specModel := spec
    errors := []
    conf := conf }

/-- One observed exchange: the request method and escaped path, and the
response status code. -/
structure Exchange where
  method : String
  urlPath : String
  statusCode : Nat
deriving DecidableEq, Repr

/-- Outcome of the external response validation when it fails:
`unsupportedFormat` records whether the failure is a parse error of kind
unsupported-format (the `errors.As` + `Kind` test in `Record`). -/
structure RespFailure where
  msg : String
  unsupportedFormat : Bool
deriving DecidableEq, Repr

/-- The loop conditions of `Record`: same method, response code equal to the
decimal rendering of the status, and the compiled route matching the
escaped request path. -/
def endpointMatches (e : endpoint) (ex : Exchange) : Bool :=
  e.method == ex.method && e.response == toString ex.statusCode
    && matchToks e.uriRe ex.urlPath.data

/-- In-place update `end.checked = true` on the endpoint slice. -/
def setChecked : List endpoint → Nat → List endpoint
  | [], _ => []
  | e :: es, 0 => { e with checked := true } :: es
  | e :: es, n + 1 => e :: setChecked es n

def notPartOfSpecError (ex : Exchange) : VerificationError :=
  ⟨.notPartOfSpec, ex.method ++ " " ++ ex.urlPath ++ ": " ++ toString ex.statusCode⟩

def requestInvalidError (ex : Exchange) (msg : String) : VerificationError :=
  ⟨.requestInvalid, ex.method ++ " " ++ ex.urlPath ++ ": " ++ msg⟩

def responseInvalidError (ex : Exchange) (re : RespFailure) : VerificationError :=
  ⟨.responseInvalid, ex.method ++ " " ++ ex.urlPath ++ ": " ++ toString ex.statusCode ++ ": " ++ re.msg⟩

def notCheckedError (e : endpoint) : VerificationError :=
  ⟨.notChecked, e.method ++ " " ++ e.path ++ ": " ++ e.response⟩

/-- Embedding of `Record`.  The request-body reset and the optional request
logging at the top of the Go function do not touch the verifier state and
are omitted.  The results of the two external validations are inputs:
`reqErr` is the request-validation failure (consulted only when request
checking is configured), `respErr` the response-validation failure.  The
first endpoint satisfying all three loop conditions is processed and the
loop returns; if none matches, a `NotPartOfSpec` error is appended unless
the status is 500 and internal-server-error checking is off. -/
def Record (v : Verifier) (ex : Exchange) (reqErr : Option String)
    (respErr : Option RespFailure) : Verifier :=
  match v.endpoints.findIdx? (fun e => endpointMatches e ex) with
  | some i =>
    let errs1 :=
      if v.conf.checkRequest then
        match reqErr with
        | some m => v.errors ++ [requestInvalidError ex m]
        | none => v.errors
      else v.errors
    let endpoints1 := setChecked v.endpoints i
    match respErr with
    | some re =>
      if v.conf.ignoreUnsupportedBodyFormats && re.unsupportedFormat then
        { v with errors := errs1, endpoints := endpoints1 }
      else
        { v with errors := errs1 ++ [responseInvalidError ex re], endpoints := endpoints1 }
    | none => { v with errors := errs1, endpoints := endpoints1 }
  | none =>
    if v.conf.checkInternalServerErrors || ex.statusCode != 500 then
      { v with errors := v.errors ++ [notPartOfSpecError ex] }
    else v

/-- Embedding of `CurrentErrors`: the ledger followed by, unless full
coverage is disabled, one `NotChecked` error per endpoint whose checked
flag is false, computed from the endpoint list at call time. -/
def CurrentErrors (v : Verifier) : List VerificationError :=
  let errs :=
    if !v.conf.disableFullCoverage then
      (v.endpoints.filter fun e => !e.checked).map notCheckedError
    else []
  v.errors ++ errs

/-- Modelled from the spec: the `Reset` method is exercised by `TestReset`
but its body is not among the sources here; per the spec, `Reset` "clears
the Error Ledger and rebuilds the Coverage Table from the original
specification model and policy". -/
def Reset (v : Verifier) : Verifier :=
  { v with errors := [], endpoints := loadPaths v.conf v.specModel }

/-- Embedding of the response-body handling in `Record`: the validator
reads `k` bytes through a tee into a buffer; afterwards, if the buffer is
non-empty the response body is replaced by the buffer, otherwise the
original stream — already advanced past the bytes read — is left in place.
The value is the byte sequence still observable by the caller. -/
def observableBody (body : List Nat) (k : Nat) : List Nat :=
  let bodyBytes := body.take k
  if bodyBytes.length > 0 then bodyBytes else body.drop k

/-
Coverage table of the map-based revision: a two-level map path → method →
response code → checked flag.  Go maps are modelled as association lists;
`updAssoc` is map assignment (replace or insert) and `getAssoc?` is lookup,
`none` standing for a missing key (and, one level up, for a nil map).
-/

def updAssoc {β : Type} : List (String × β) → String → β → List (String × β)
  | [], k, v => [(k, v)]
  | p :: rest, k, v => if p.1 == k then (k, v) :: rest else p :: updAssoc rest k v

def getAssoc? {β : Type} (l : List (String × β)) (k : String) : Option β :=
  (l.find? fun p => p.1 == k).map fun p => p.2

/-- Embedding of `strings.ToUpper` as used on method names: upper-case
every character. -/
def strToUpper (s : String) : String :=
  ⟨s.data.map Char.toUpper⟩

structure responses where
  responses : List (String × Bool)
deriving DecidableEq, Repr

structure methods where
  methods : List (String × responses)
deriving DecidableEq, Repr

structure endpoints where
  paths : List (String × methods)
  checkInternalServerErrors : Bool
deriving DecidableEq, Repr

/-- The operations of one path item of the external model, as the map-based
loader walks them: method name (in the model's casing) paired with the
operation. -/
abbrev OperationMap := List (String × Operation)

/-- Embedding of the map-based `loadPath`: ensure the path key, then for
every operation ensure the upper-cased method key and insert every
documented response code (skipping `"500"` unless internal-server-error
checking is on) with the flag false. -/
def endpoints.loadPath (e : endpoints) (path : String) (ops : OperationMap) : endpoints :=
  let paths1 :=
    match getAssoc? e.paths path with
    | none => updAssoc e.paths path ⟨[]⟩
    | some _ => e.paths
  let paths2 := ops.foldl
    (fun tbl mop =>
      let method := strToUpper mop.1
      let tbl1 :=
        match getAssoc? tbl path with
        | some m =>
          match getAssoc? m.methods method with
          | none => updAssoc tbl path ⟨updAssoc m.methods method ⟨[]⟩⟩
          | some _ => tbl
        | none => tbl
      mop.2.responses.foldl
        (fun tbl2 responseCode =>
          if !e.checkInternalServerErrors && responseCode == "500" then tbl2
          else
            match getAssoc? tbl2 path with
            | some m =>
              match getAssoc? m.methods method with
              | some r =>
                updAssoc tbl2 path ⟨updAssoc m.methods method ⟨updAssoc r.responses responseCode false⟩⟩
              | none => tbl2
            | none => tbl2)
        tbl1)
    paths1
  { e with paths := paths2 }

/-- Embedding of `newEndpoints`: start from the empty table and load every
path of the model. -/
def newEndpoints (model : List (String × OperationMap)) (checkInternalServerErrors : Bool) : endpoints :=
  model.foldl (fun e pi => e.loadPath pi.1 pi.2)
    { paths := [], checkInternalServerErrors := checkInternalServerErrors }

/-- Embedding of `responseMap`: the response map registered under a path and
upper-cased method, `none` when either level is missing (a nil Go map). -/
def endpoints.responseMap (e : endpoints) (path method : String) : Option (List (String × Bool)) :=
  match getAssoc? e.paths path with
  | none => none
  | some m =>
    match getAssoc? m.methods (strToUpper method) with
    | none => none
    | some r => some r.responses

/-- Embedding of `IsChecked`: reading a missing key — or reading through a
nil map — yields the zero value false. -/
def endpoints.IsChecked (e : endpoints) (path method resCode : String) : Bool :=
  match e.responseMap path method with
  | none => false
  | some r => (getAssoc? r resCode).getD false

/-- Embedding of `MarkChecked`: when the response map for the path and
method is nil the table is untouched and the result is false; otherwise the
assignment `r[resCode] = true` is performed on that map — a Go map
assignment, which inserts the key when absent — and the result is true. -/
def endpoints.MarkChecked (e : endpoints) (path method resCode : String) : endpoints × Bool :=
  match getAssoc? e.paths path with
  | none => (e, false)
  | some m =>
    match getAssoc? m.methods (strToUpper method) with
    | none => (e, false)
    | some r =>
      ({ e with
          paths := updAssoc e.paths path
            ⟨updAssoc m.methods (strToUpper method) ⟨updAssoc r.responses resCode true⟩⟩ }, true)

/-- The exported coordinate record of the map-based revision. -/
structure Endpoint where
  Path : String
  Method : String
  ResponseCode : String
deriving DecidableEq, Repr

/-- Embedding of `Unchecked`: every coordinate whose flag is false. -/
def endpoints.Unchecked (e : endpoints) : List Endpoint :=
  e.paths.flatMap fun pm =>
    pm.2.methods.flatMap fun mr =>
      (mr.2.responses.filter fun p => !p.2).map fun p =>
        { Path := pm.1, Method := mr.1, ResponseCode := p.1 }

/-
Supporting lemmas.
-/

theorem goEq_refl (e : GoError) : goEq e e = true := by
  cases e <;> simp [goEq]

theorem errorsIs_unfold (err target : GoError) :
    errorsIs err target =
      (goEq err target ||
        match err with
        | .joined _ s cause => errorsIs cause target || errorsIs (.sentinelErr s) target
        | _ => false) := by
  rw [errorsIs.eq_def]

theorem errorsIs_of_goEq {e t : GoError} (h : goEq e t = true) : errorsIs e t = true := by
  rw [errorsIs_unfold, h, Bool.true_or]

theorem errorsIs_nestJoin_of {chain : List (Nat × String)} {cause t : GoError}
    (h : errorsIs cause t = true) : errorsIs (nestJoin chain cause) t = true := by
  induction chain with
  | nil => exact h
  | cons p ps ih =>
    show errorsIs (.joined p.1 p.2 (nestJoin ps cause)) t = true
    rw [errorsIs_unfold]
    simp [ih]

theorem errorsIs_nestJoin_sentinel {chain : List (Nat × String)} {cause : GoError}
    {j : Nat} {t : String} (h : (j, t) ∈ chain) :
    errorsIs (nestJoin chain cause) (.sentinelErr t) = true := by
  induction chain with
  | nil => cases h
  | cons p ps ih =>
    show errorsIs (.joined p.1 p.2 (nestJoin ps cause)) (.sentinelErr t) = true
    rw [errorsIs_unfold]
    rcases List.mem_cons.mp h with heq | hmem
    · have : p.2 = t := by rw [← heq]
      subst this
      have : errorsIs (GoError.sentinelErr p.2) (GoError.sentinelErr p.2) = true :=
        errorsIs_of_goEq (goEq_refl _)
      simp [this]
    · simp [ih hmem]

theorem nestJoin_message_suffix (chain : List (Nat × String)) (cause : GoError) :
    ∃ l, (nestJoin chain cause).message.data = l ++ cause.message.data := by
  induction chain with
  | nil => exact ⟨[], rfl⟩
  | cons p ps ih =>
    obtain ⟨l, hl⟩ := ih
    refine ⟨(p.2 ++ ": ").data ++ l, ?_⟩
    show (p.2 ++ ": " ++ (nestJoin ps cause).message).data = _
    rw [String.data_append, hl, List.append_assoc]

theorem setChecked_getElem? (l : List endpoint) (i : Nat) :
    (setChecked l i)[i]? = l[i]?.map fun e => { e with checked := true } := by
  induction l generalizing i with
  | nil => simp [setChecked]
  | cons e es ih =>
    cases i with
    | zero => simp [setChecked]
    | succ n => simp [setChecked, ih]

theorem setChecked_filter_unchecked (l : List endpoint) (i : Nat) :
    (setChecked l i).filter (fun e => !e.checked)
      = (l.take i ++ l.drop (i + 1)).filter fun e => !e.checked := by
  induction l generalizing i with
  | nil => simp [setChecked]
  | cons e es ih =>
    cases i with
    | zero => simp [setChecked, List.filter_cons]
    | succ n => simp [setChecked, List.filter_cons, ih]

/-- The value of `Record` on an exchange whose first matching endpoint has
index `i`: the endpoint is marked checked, and the ledger grows by the
request-validation error (when configured and failing) and the
response-validation error (unless suppressed). -/
theorem record_matched_eq (v : Verifier) (ex : Exchange) (reqErr : Option String)
    (respErr : Option RespFailure) (i : Nat)
    (hm : v.endpoints.findIdx? (fun e => endpointMatches e ex) = some i) :
    Record v ex reqErr respErr =
      { v with
        errors :=
          (if v.conf.checkRequest then
            match reqErr with
            | some m => v.errors ++ [requestInvalidError ex m]
            | none => v.errors
          else v.errors)
          ++ (match respErr with
              | some re =>
                if v.conf.ignoreUnsupportedBodyFormats && re.unsupportedFormat then []
                else [responseInvalidError ex re]
              | none => [])
        endpoints := setChecked v.endpoints i } := by
  cases respErr with
  | none => simp [Record, hm]
  | some re =>
    by_cases hig : (v.conf.ignoreUnsupportedBodyFormats && re.unsupportedFormat) = true
    · simp [Record, hm, hig]
    · simp [Record, hm, hig]

/-
Claim theorems.
-/

/-- C6: for every classified error built by wrapping a cause in a chain of
sentinel classifications of arbitrary depth, `errors.Is` succeeds against
the sentinel of every layer (the outer one included) and against the
original cause, and the rendered message contains both the outer sentinel
text and the cause's message. -/
theorem joined_error_membership_and_message (i : Nat) (s : String)
    (chain : List (Nat × String)) (cause : GoError) (j : Nat) (t : String)
    (hmem : (j, t) ∈ (i, s) :: chain) :
    errorsIs (nestJoin ((i, s) :: chain) cause) (.sentinelErr t) = true ∧
    errorsIs (nestJoin ((i, s) :: chain) cause) cause = true ∧
    StrContains (nestJoin ((i, s) :: chain) cause).message s ∧
    StrContains (nestJoin ((i, s) :: chain) cause).message cause.message := by
  refine ⟨errorsIs_nestJoin_sentinel hmem,
    errorsIs_nestJoin_of (errorsIs_of_goEq (goEq_refl _)), ?_, ?_⟩
  · refine ⟨[], (": " ++ (nestJoin chain cause).message).data, ?_⟩
    show (s ++ ": " ++ (nestJoin chain cause).message).data = _
    simp [String.data_append]
  · obtain ⟨l, hl⟩ := nestJoin_message_suffix ((i, s) :: chain) cause
    exact ⟨l, [], by rw [hl]; simp⟩

/-- Witness for C6 at the shape of the nested test case: a cause wrapped
in `NotPartOfSpec` then in `RequestInvalid`. -/
theorem joined_error_membership_and_message_witness :
    errorsIs (nestJoin [(0, "request invalid"), (1, "not part of spec")]
        (GoError.basic 7 "my test error")) (.sentinelErr "not part of spec") = true ∧
    errorsIs (nestJoin [(0, "request invalid"), (1, "not part of spec")]
        (GoError.basic 7 "my test error")) (GoError.basic 7 "my test error") = true ∧
    StrContains (nestJoin [(0, "request invalid"), (1, "not part of spec")]
        (GoError.basic 7 "my test error")).message "request invalid" ∧
    StrContains (nestJoin [(0, "request invalid"), (1, "not part of spec")]
        (GoError.basic 7 "my test error")).message (GoError.basic 7 "my test error").message :=
  joined_error_membership_and_message 0 "request invalid" [(1, "not part of spec")]
    (GoError.basic 7 "my test error") 1 "not part of spec" (by simp)

/-- C3: `CurrentErrors` returns the ledger followed by, unless full
coverage is disabled, exactly one `NotChecked` error per coordinate whose
checked flag is currently false, computed from the coverage table at each
call; with full coverage disabled only the ledger contents (for example
`NotPartOfSpec` entries) are returned. -/
theorem currentErrors_ledger_plus_unchecked (v : Verifier) :
    CurrentErrors v =
      v.errors ++
        (if v.conf.disableFullCoverage then []
         else (v.endpoints.filter fun e => !e.checked).map notCheckedError) ∧
    ((CurrentErrors v).filter fun err => err.classification == Classification.notChecked).length
      = (v.errors.filter fun err => err.classification == Classification.notChecked).length
          + (if v.conf.disableFullCoverage then 0
             else (v.endpoints.filter fun e => !e.checked).length) := by
  cases h : v.conf.disableFullCoverage with
  | false =>
    refine ⟨by simp [CurrentErrors, h], ?_⟩
    simp [CurrentErrors, h, List.filter_append, List.filter_map, Function.comp,
      notCheckedError]
  | true => simp [CurrentErrors, h]

/-- C2: recording an exchange whose (method, path, status) triple matches
no tracked coordinate — in particular when only the path template matches —
appends exactly one `NotPartOfSpec` classified error and leaves the
coverage table unchanged, except that nothing at all happens when the
response status is 500 and internal-server-error checking is off. -/
theorem record_unmatched_appends_one_notPartOfSpec (v : Verifier) (ex : Exchange)
    (reqErr : Option String) (respErr : Option RespFailure)
    (h : ∀ e ∈ v.endpoints, endpointMatches e ex = false) :
    (¬(ex.statusCode = 500 ∧ v.conf.checkInternalServerErrors = false) →
        (Record v ex reqErr respErr).errors = v.errors ++ [notPartOfSpecError ex] ∧
        (Record v ex reqErr respErr).endpoints = v.endpoints) ∧
    (ex.statusCode = 500 ∧ v.conf.checkInternalServerErrors = false →
        Record v ex reqErr respErr = v) := by
  have hf : v.endpoints.findIdx? (fun e => endpointMatches e ex) = none :=
    List.findIdx?_eq_none_iff.mpr h
  constructor
  · intro hc
    have hcond : (v.conf.checkInternalServerErrors || ex.statusCode != 500) = true := by
      rcases eq_or_ne ex.statusCode 500 with h5 | h5
      · have hb : v.conf.checkInternalServerErrors = true := by
          cases hb : v.conf.checkInternalServerErrors
          · exact absurd ⟨h5, hb⟩ hc
          · rfl
        simp [hb]
      · simp [h5]
    simp [Record, hf, hcond]
  · rintro ⟨h5, hb⟩
    have hcond : (v.conf.checkInternalServerErrors || ex.statusCode != 500) = false := by
      simp [h5, hb]
    simp [Record, hf, hcond]

/-- Witness for C2: a one-endpoint specification and an exchange whose
method is not documented. -/
theorem record_unmatched_appends_one_notPartOfSpec_witness :
    (Record (NewVerifier [("/ping", { get := some ⟨["200"]⟩ })] {})
        ⟨"POST", "/ping", 200⟩ none none).errors
      = (NewVerifier [("/ping", { get := some ⟨["200"]⟩ })] {}).errors
          ++ [notPartOfSpecError ⟨"POST", "/ping", 200⟩] ∧
    (Record (NewVerifier [("/ping", { get := some ⟨["200"]⟩ })] {})
        ⟨"POST", "/ping", 200⟩ none none).endpoints
      = (NewVerifier [("/ping", { get := some ⟨["200"]⟩ })] {}).endpoints :=
  (record_unmatched_appends_one_notPartOfSpec _ _ none none (by decide)).1 (by decide)

/-- C10: recording an exchange whose triple matches a tracked coordinate
marks that coordinate checked even when request or response validation
fails: the table is otherwise untouched, the coordinate stops counting as
unchecked, and the `RequestInvalid` / `ResponseInvalid` error is in the
ledger whenever the corresponding validation failed and was not
suppressed. -/
theorem record_match_marks_checked (v : Verifier) (ex : Exchange)
    (reqErr : Option String) (respErr : Option RespFailure) (i : Nat)
    (hm : v.endpoints.findIdx? (fun e => endpointMatches e ex) = some i) :
    (Record v ex reqErr respErr).endpoints = setChecked v.endpoints i ∧
    ((Record v ex reqErr respErr).endpoints[i]?.map fun e => e.checked) = some true ∧
    ((Record v ex reqErr respErr).endpoints.filter fun e => !e.checked)
      = ((v.endpoints.take i ++ v.endpoints.drop (i + 1)).filter fun e => !e.checked) ∧
    (∀ m, reqErr = some m → v.conf.checkRequest = true →
        requestInvalidError ex m ∈ (Record v ex reqErr respErr).errors) ∧
    (∀ re, respErr = some re →
        (v.conf.ignoreUnsupportedBodyFormats && re.unsupportedFormat) = false →
        responseInvalidError ex re ∈ (Record v ex reqErr respErr).errors) := by
  have hlt : i < v.endpoints.length :=
    (List.findIdx?_eq_some_iff_findIdx_eq.mp hm).1
  have hrec := record_matched_eq v ex reqErr respErr i hm
  refine ⟨by rw [hrec], ?_, ?_, ?_, ?_⟩
  · rw [hrec]
    simp [setChecked_getElem?, List.getElem?_eq_getElem hlt]
  · rw [hrec]
    simp [setChecked_filter_unchecked]
  · intro m hme hcr
    rw [hrec]
    simp [hme, hcr]
  · intro re hre hig
    rw [hrec]
    simp [hre, hig]

/-- Witness for C10: a documented POST coordinate hit by an exchange whose
request validation fails is still marked checked. -/
theorem record_match_marks_checked_witness :
    ((Record (NewVerifier [("/req", { post := some ⟨["204"]⟩ })] { checkRequest := true })
        ⟨"POST", "/req", 204⟩ (some "input must be a string") none).endpoints[0]?.map
          fun e => e.checked) = some true :=
  (record_match_marks_checked _ _ (some "input must be a string") none 0 (by decide)).2.1

/-- C9: when response validation of a matched exchange fails with an
unsupported-format parse error and the ignore-unsupported-body-formats
option is on, no error is appended; any other response-validation failure
appends a `ResponseInvalid` classified error. -/
theorem record_response_suppression (v : Verifier) (ex : Exchange)
    (reqErr : Option String) (re : RespFailure) (i : Nat)
    (hm : v.endpoints.findIdx? (fun e => endpointMatches e ex) = some i)
    (hreq : v.conf.checkRequest = false ∨ reqErr = none) :
    ((v.conf.ignoreUnsupportedBodyFormats && re.unsupportedFormat) = true →
        (Record v ex reqErr (some re)).errors = v.errors) ∧
    ((v.conf.ignoreUnsupportedBodyFormats && re.unsupportedFormat) = false →
        (Record v ex reqErr (some re)).errors = v.errors ++ [responseInvalidError ex re]) := by
  have hrec := record_matched_eq v ex reqErr (some re) i hm
  constructor
  · intro hig
    rw [hrec]
    rcases hreq with h | h
    · simp [h, hig]
    · subst h
      simp [hig]
  · intro hig
    rw [hrec]
    rcases hreq with h | h
    · simp [h, hig]
    · subst h
      simp [hig]

/-- Witness for C9: a binary response against a spec declaring the media,
with the ignore option enabled, yields no error. -/
theorem record_response_suppression_witness :
    (Record (NewVerifier [("/video", { get := some ⟨["200"]⟩ })]
        { ignoreUnsupportedBodyFormats := true })
        ⟨"GET", "/video", 200⟩ none (some ⟨"unsupported media type", true⟩)).errors
      = (NewVerifier [("/video", { get := some ⟨["200"]⟩ })]
          { ignoreUnsupportedBodyFormats := true }).errors :=
  (record_response_suppression _ _ none ⟨"unsupported media type", true⟩ 0
      (by decide) (Or.inr rfl)).1 (by decide)

/-- A sequence of `Record` calls: each element carries the exchange and the
two external validation outcomes observed for it. -/
def applyRecords (v : Verifier)
    (xs : List (Exchange × Option String × Option RespFailure)) : Verifier :=
  xs.foldl (fun w t => Record w t.1 t.2.1 t.2.2) v

theorem record_preserves_model_and_conf (v : Verifier) (ex : Exchange)
    (reqErr : Option String) (respErr : Option RespFailure) :
    (Record v ex reqErr respErr).specModel = v.specModel ∧
    (Record v ex reqErr respErr).conf = v.conf := by
  cases hf : v.endpoints.findIdx? (fun e => endpointMatches e ex) with
  | some i =>
    cases respErr with
    | none => simp [Record, hf]
    | some re =>
      by_cases hig : (v.conf.ignoreUnsupportedBodyFormats && re.unsupportedFormat) = true
      · simp [Record, hf, hig]
      · simp [Record, hf, hig]
  | none =>
    by_cases hc : (v.conf.checkInternalServerErrors || ex.statusCode != 500) = true
    · simp [Record, hf, hc]
    · simp [Record, hf, hc]

theorem applyRecords_preserves_model_and_conf
    (xs : List (Exchange × Option String × Option RespFailure)) (v : Verifier) :
    (applyRecords v xs).specModel = v.specModel ∧ (applyRecords v xs).conf = v.conf := by
  induction xs generalizing v with
  | nil => exact ⟨rfl, rfl⟩
  | cons t ts ih =>
    have h1 := record_preserves_model_and_conf v t.1 t.2.1 t.2.2
    have h2 := ih (Record v t.1 t.2.1 t.2.2)
    exact ⟨h2.1.trans h1.1, h2.2.trans h1.2⟩

/-- C5: `Reset` after any sequence of `Record` calls yields exactly the
freshly constructed verifier — empty ledger, and a coverage table rebuilt
from the originally supplied specification model and policy with every
documented coordinate unchecked. -/
theorem reset_restores_fresh_verifier (spec : SpecModel) (conf : Config)
    (recorded : List (Exchange × Option String × Option RespFailure)) :
    Reset (applyRecords (NewVerifier spec conf) recorded) = NewVerifier spec conf := by
  have h := applyRecords_preserves_model_and_conf recorded (NewVerifier spec conf)
  have h1 : (applyRecords (NewVerifier spec conf) recorded).specModel = spec := h.1
  have h2 : (applyRecords (NewVerifier spec conf) recorded).conf = conf := h.2
  simp only [NewVerifier] at h1 h2
  simp [Reset, NewVerifier, h1, h2]

/-- C8: after `Record` processes a matched exchange, the response body
observable by the caller is the full original content whether or not
validation failed, given that the external validator either does not touch
the body or performs a full read of it. -/
theorem record_restores_full_body (body : List Nat) (k : Nat)
    (h : k = 0 ∨ body.length ≤ k) :
    observableBody body k = body := by
  rcases h with h | h
  · subst h
    simp [observableBody]
  · simp only [observableBody]
    rw [List.take_of_length_le h]
    cases body with
    | nil => simp
    | cons a l => simp

/-- Witness for C8: a two-byte binary body fully read by the validator. -/
theorem record_restores_full_body_witness :
    (((2 : Nat) = 0 ∨ ([1, 136] : List Nat).length ≤ 2) ∧
      observableBody [1, 136] 2 = [1, 136]) :=
  ⟨Or.inr (by decide), record_restores_full_body [1, 136] 2 (Or.inr (by decide))⟩

/-- C4 (evaluation at the failing input): the claimed key-set invariant is
broken by `MarkChecked`.  On a table documenting only (/thing, GET, 200),
`MarkChecked` for the never-inserted coordinate (/thing, GET, 404) reports
true and changes the table, inserting the new coordinate as checked. -/
theorem markChecked_undocumented_code_mutates_table :
    ((newEndpoints [("/thing", [("get", ⟨["200"]⟩)])] false).MarkChecked
        "/thing" "GET" "404").2 = true ∧
    ((newEndpoints [("/thing", [("get", ⟨["200"]⟩)])] false).MarkChecked
        "/thing" "GET" "404").1
      ≠ newEndpoints [("/thing", [("get", ⟨["200"]⟩)])] false ∧
    ((newEndpoints [("/thing", [("get", ⟨["200"]⟩)])] false).MarkChecked
        "/thing" "GET" "404").1.IsChecked "/thing" "GET" "404" = true := by
  decide

/-- C7 (evaluation at the failing input): `MarkChecked` does not return
whether the full coordinate existed.  On a table documenting (/ping, GET,
200) and (/ping, GET, 404), the coordinate (/ping, GET, 418) was never
inserted — `IsChecked` is false — yet `MarkChecked` returns true for it
and sets it checked, instead of leaving the table unchanged and returning
false. -/
theorem markChecked_missing_coordinate_reports_true :
    (newEndpoints [("/ping", [("get", ⟨["200", "404"]⟩)])] false).IsChecked
        "/ping" "GET" "418" = false ∧
    ((newEndpoints [("/ping", [("get", ⟨["200", "404"]⟩)])] false).MarkChecked
        "/ping" "GET" "418").2 = true ∧
    ((newEndpoints [("/ping", [("get", ⟨["200", "404"]⟩)])] false).MarkChecked
        "/ping" "GET" "418").1.IsChecked "/ping" "GET" "418" = true := by
  decide

/-
Counting documented triples, for the construction-time coverage report.
-/

/-- All operations documented on a path item, with their method names, in
field order of the model type. -/
def allOperations (i : PathItem) : List (String × Operation) :=
  (i.get.map fun op => ("GET", op)).toList
    ++ (i.head.map fun op => ("HEAD", op)).toList
    ++ (i.put.map fun op => ("PUT", op)).toList
    ++ (i.post.map fun op => ("POST", op)).toList
    ++ (i.delete.map fun op => ("DELETE", op)).toList
    ++ (i.patch.map fun op => ("PATCH", op)).toList
    ++ (i.options.map fun op => ("OPTIONS", op)).toList
    ++ (i.trace.map fun op => ("TRACE", op)).toList
    ++ (i.connect.map fun op => ("CONNECT", op)).toList

/-- Stated from the claim, not from the loader: the number of documented
(path, method, response-status-code) triples whose method belongs to the
fixed supported set, excluding status `"500"` triples unless
internal-server-error checking is enabled. -/
def documentedTripleCount (conf : Config) (spec : SpecModel) : Nat :=
  (spec.flatMap fun pi =>
    ((allOperations pi.2).filter fun mo => supportedMethods.contains mo.1).flatMap fun mo =>
      mo.2.responses.filter fun c => conf.checkInternalServerErrors || c != "500").length

/-- Number of responses an optional operation contributes after the status
filter. -/
def countOpt (q : String → Bool) (o : Option Operation) : Nat :=
  match o with
  | none => 0
  | some op => (op.responses.filter q).length

theorem getOperation_GET (i : PathItem) : i.getOperation "GET" = i.get := rfl

theorem getOperation_HEAD (i : PathItem) : i.getOperation "HEAD" = i.head := rfl

theorem getOperation_PUT (i : PathItem) : i.getOperation "PUT" = i.put := rfl

theorem getOperation_POST (i : PathItem) : i.getOperation "POST" = i.post := rfl

theorem getOperation_DELETE (i : PathItem) : i.getOperation "DELETE" = i.delete := rfl

theorem getOperation_PATCH (i : PathItem) : i.getOperation "PATCH" = i.patch := rfl

theorem getOperation_OPTIONS (i : PathItem) : i.getOperation "OPTIONS" = i.options := rfl

theorem mem_GET : "GET" ∈ supportedMethods := by decide

theorem mem_HEAD : "HEAD" ∈ supportedMethods := by decide

theorem mem_PUT : "PUT" ∈ supportedMethods := by decide

theorem mem_POST : "POST" ∈ supportedMethods := by decide

theorem mem_DELETE : "DELETE" ∈ supportedMethods := by decide

theorem mem_PATCH : "PATCH" ∈ supportedMethods := by decide

theorem mem_OPTIONS : "OPTIONS" ∈ supportedMethods := by decide

theorem not_mem_TRACE : "TRACE" ∉ supportedMethods := by decide

theorem not_mem_CONNECT : "CONNECT" ∉ supportedMethods := by decide

theorem length_loadPathFor (conf : Config) (path : String) (i : PathItem) (method : String) :
    (loadPathFor conf path i method).length
      = countOpt (fun c => conf.checkInternalServerErrors || c != "500")
          (i.getOperation method) := by
  unfold loadPathFor
  cases i.getOperation method <;> simp [countOpt]

theorem filter_piece_true (o : Option Operation) (m : String)
    (hm : m ∈ supportedMethods) :
    ((o.map fun op => (m, op)).toList.filter fun mo => supportedMethods.contains mo.1)
      = (o.map fun op => (m, op)).toList := by
  cases o <;> simp [hm]

theorem filter_piece_false (o : Option Operation) (m : String)
    (hm : m ∉ supportedMethods) :
    ((o.map fun op => (m, op)).toList.filter fun mo => supportedMethods.contains mo.1)
      = [] := by
  cases o <;> simp [hm]

theorem length_flatMap_piece (o : Option Operation) (m : String) (q : String → Bool) :
    ((o.map fun op => (m, op)).toList.flatMap fun mo => mo.2.responses.filter q).length
      = countOpt q o := by
  cases o <;> simp [countOpt]

theorem flatMap_supportedMethods {α : Type} (g : String → List α) :
    supportedMethods.flatMap g
      = g "GET" ++ (g "HEAD" ++ (g "PUT" ++ (g "POST"
          ++ (g "DELETE" ++ (g "PATCH" ++ g "OPTIONS"))))) := by
  simp [supportedMethods]

theorem loadPath_length (conf : Config) (path : String) (i : PathItem) :
    (loadPath conf path i).length
      = (((allOperations i).filter fun mo => supportedMethods.contains mo.1).flatMap fun mo =>
          mo.2.responses.filter fun c => conf.checkInternalServerErrors || c != "500").length := by
  have hT := filter_piece_false i.trace "TRACE" not_mem_TRACE
  have hC := filter_piece_false i.connect "CONNECT" not_mem_CONNECT
  simp only [loadPath, flatMap_supportedMethods,
    List.append_nil, List.length_append, length_loadPathFor,
    getOperation_GET, getOperation_HEAD, getOperation_PUT, getOperation_POST,
    getOperation_DELETE, getOperation_PATCH, getOperation_OPTIONS,
    allOperations, List.filter_append,
    filter_piece_true, hT, hC,
    mem_GET, mem_HEAD, mem_PUT, mem_POST, mem_DELETE,
    mem_PATCH, mem_OPTIONS,
    List.flatMap_append, List.flatMap_nil, List.length_nil,
    length_flatMap_piece]
  omega

theorem loadPaths_length (conf : Config) (spec : SpecModel) :
    (loadPaths conf spec).length = documentedTripleCount conf spec := by
  unfold loadPaths documentedTripleCount
  rw [List.length_flatMap, List.length_flatMap]
  congr 1
  apply List.map_congr_left
  intro pi _
  simpa using loadPath_length conf pi.1 pi.2

theorem loadPathFor_unchecked (conf : Config) (path : String) (i : PathItem)
    (m : String) : ∀ e ∈ loadPathFor conf path i m, e.checked = false := by
  intro e he
  unfold loadPathFor at he
  cases hop : i.getOperation m with
  | none => rw [hop] at he; cases he
  | some op =>
    rw [hop] at he
    rw [List.mem_map] at he
    obtain ⟨c, _, rfl⟩ := he
    rfl

theorem loadPaths_unchecked (conf : Config) (spec : SpecModel) :
    ∀ e ∈ loadPaths conf spec, e.checked = false := by
  intro e he
  unfold loadPaths at he
  rw [List.mem_flatMap] at he
  obtain ⟨pi, _, he1⟩ := he
  unfold loadPath at he1
  rw [List.mem_flatMap] at he1
  obtain ⟨m, _, he2⟩ := he1
  exact loadPathFor_unchecked conf pi.1 pi.2 m e he2

/-- C1: immediately after construction, the number of coordinates reported
as unchecked equals the number of documented (path, method,
response-status-code) triples whose method is in the fixed supported set
{GET, HEAD, PUT, POST, DELETE, PATCH, OPTIONS}, excluding status "500"
triples unless internal-server-error checking is enabled; operations with
methods outside the set are never tracked and never reported. -/
theorem unchecked_report_counts_documented_triples (spec : SpecModel) (conf : Config)
    (h : conf.disableFullCoverage = false) :
    ((CurrentErrors (NewVerifier spec conf)).filter fun err =>
        err.classification == Classification.notChecked).length
      = documentedTripleCount conf spec := by
  have hunch := loadPaths_unchecked conf spec
  have hfilter : ((loadPaths conf spec).filter fun e => !e.checked) = loadPaths conf spec :=
    List.filter_eq_self.mpr fun e he => by rw [hunch e he]; rfl
  have hmapfilter : (((loadPaths conf spec).map notCheckedError).filter fun err =>
      err.classification == Classification.notChecked) = (loadPaths conf spec).map notCheckedError := by
    apply List.filter_eq_self.mpr
    intro x hx
    rw [List.mem_map] at hx
    obtain ⟨e, _, rfl⟩ := hx
    rfl
  unfold CurrentErrors NewVerifier
  simp only [h]
  simp [hfilter, hmapfilter, loadPaths_length]

/-- Witness for C1: one path with a GET operation documenting statuses 200
and 500 and a TRACE operation; with default policy exactly one coordinate
is reported unchecked. -/
theorem unchecked_report_counts_documented_triples_witness :
    ({} : Config).disableFullCoverage = false ∧
    ((CurrentErrors (NewVerifier
          [("/fault", { get := some ⟨["200", "500"]⟩, trace := some ⟨["200"]⟩ })]
          {})).filter fun err =>
        err.classification == Classification.notChecked).length
      = documentedTripleCount {}
          [("/fault", { get := some ⟨["200", "500"]⟩, trace := some ⟨["200"]⟩ })] ∧
    documentedTripleCount {}
        [("/fault", { get := some ⟨["200", "500"]⟩, trace := some ⟨["200"]⟩ })] = 1 :=
  ⟨rfl, unchecked_report_counts_documented_triples _ _ rfl, by decide⟩

end Copper
